import Mathlib

/-!
Verification of the unit-selection prototype (`src/main.rs`) against its
natural-language specification.

The embedding is shallow: each Bevy system of the source becomes a Lean
function over explicit state. `f32` coordinates are modelled as exact
rationals (the program only compares, subtracts, negates and halves them).
The ECS world visible to the systems is a list of per-entity records holding
the components the source queries (`Transform`, the `Selectable` / `Selected`
/ `Border` / `SelectionDisplay` tags, `Visibility`, and the declared-but-unused
`MoveTo` / `TroopVelocity` pair); events are lists, and a system's command
buffer effects are returned as the updated world.
-/

namespace Conquest

/-- 2D vector (Bevy `Vec2`), with exact rational coordinates. -/
structure Vec2 where
  x : ℚ
  y : ℚ
  deriving DecidableEq, Repr

/-- 3D vector (Bevy `Vec3`). -/
structure Vec3 where
  x : ℚ
  y : ℚ
  z : ℚ
  deriving DecidableEq, Repr

/-- Componentwise subtraction of `Vec2`. -/
def Vec2.sub (a b : Vec2) : Vec2 := ⟨a.x - b.x, a.y - b.y⟩

/-- Componentwise addition of `Vec2`. -/
def Vec2.add (a b : Vec2) : Vec2 := ⟨a.x + b.x, a.y + b.y⟩

/-- Division of a `Vec2` by the scalar 2 (`size() / 2.`, `(from + to) / 2.`). -/
def Vec2.half (a : Vec2) : Vec2 := ⟨a.x / 2, a.y / 2⟩

/-- The `xy` swizzle of a `Vec3` (`transform.translation.xy()`). -/
def Vec3.xy (v : Vec3) : Vec2 := ⟨v.x, v.y⟩

/-- `struct SelectionBox(Option<(Vec2, Vec2)>)` — the in-progress selection
rectangle resource, `None` when no drag is active. -/
structure SelectionBox where
  sel : Option (Vec2 × Vec2)
  deriving DecidableEq, Repr

/-- `SelectionBox::within_selection`, translated line by line:
destructure the optional pair as `(to, from)`, returning `false` on `None`;
`within_x = to.x < pos.x && pos.x < from.x`;
`within_y = to.y > pos.y && pos.y > from.y`; result `within_x && within_y`. -/
def SelectionBox.within_selection (self : SelectionBox) (pos : Vec2) : Bool :=
  match self.sel with
  | none => false
  | some (to_, from_) =>
    let within_x := decide (to_.x < pos.x) && decide (pos.x < from_.x)
    let within_y := decide (to_.y > pos.y) && decide (pos.y > from_.y)
    within_x && within_y

/-- `struct FinishedSelectingEvent(SelectionBox)`. -/
structure FinishedSelectingEvent where
  box : SelectionBox
  deriving DecidableEq, Repr

/-- `struct DeselectEvent;` — a payload-free event. -/
structure DeselectEvent where
  deriving DecidableEq, Repr

/-- `struct MoveTo(Vec2)` — declared component, consumed by no system. -/
structure MoveTo where
  target : Vec2
  deriving DecidableEq, Repr

/-- `struct TroopVelocity(f32)` — declared component, consumed by no system. -/
structure TroopVelocity where
  speed : ℚ
  deriving DecidableEq, Repr

/-- Bevy `Visibility` component (the source uses `Visible` and `Hidden`). -/
inductive Visibility where
  | Inherited
  | Hidden
  | Visible
  deriving DecidableEq, Repr

/-- Bevy `Transform`, restricted to the fields the source reads or writes. -/
structure Transform where
  translation : Vec3
  scale : Vec3
  deriving DecidableEq, Repr

/-- One entity of the ECS world, carrying the components the registered
systems query: its `Transform`, the presence of the `Selectable`, `Selected`,
`Border` and `SelectionDisplay` tags, its `Visibility`, and the unused
`MoveTo` / `TroopVelocity` components (absent components are `none`). -/
structure EntityState where
  transform : Transform
  selectable : Bool
  selected : Bool
  border : Bool
  selection_display : Bool
  visibility : Visibility
  move_to : Option MoveTo
  troop_velocity : Option TroopVelocity
  deriving DecidableEq, Repr

/-- Bevy mouse buttons (the source uses `Left` and `Right`). -/
inductive MouseButton where
  | Left
  | Right
  | Middle
  deriving DecidableEq, Repr

/-- `Res<ButtonInput<MouseButton>>`, as the three per-button predicates the
source calls. -/
structure ButtonInput where
  just_pressed : MouseButton → Bool
  pressed : MouseButton → Bool
  just_released : MouseButton → Bool

/-- The primary `Window`: an optional cursor position and a size. -/
structure Window where
  cursor_position : Option Vec2
  size : Vec2
  deriving DecidableEq, Repr

/-- What `handle_mouse_input` produces in one frame: the new `SelectionBox`
resource and the events written to the two event writers. -/
structure MouseOutput where
  selection_box : SelectionBox
  finished_events : List FinishedSelectingEvent
  deselect_events : List DeselectEvent
  deriving DecidableEq, Repr

/-- The window-to-world conversion of `handle_mouse_input`:
`world_position = window_position - size / 2`, then negate `y`. -/
def world_pos (window : Window) (window_position : Vec2) : Vec2 :=
  let wp := Vec2.sub window_position (Vec2.half window.size)
  ⟨wp.x, -wp.y⟩

/-- The two drag-update steps of `handle_mouse_input`: on
`just_pressed(Left)` start a degenerate box at the cursor, then on
`pressed(Left)` move the box's second corner to the cursor. -/
def drag_update (selection_box : SelectionBox) (buttons : ButtonInput)
    (world_position : Vec2) : SelectionBox :=
  let sb1 :=
    if buttons.just_pressed MouseButton.Left then
      SelectionBox.mk (some (world_position, world_position))
    else selection_box
  if buttons.pressed MouseButton.Left then
    match sb1.sel with
    | some selection => SelectionBox.mk (some (selection.1, world_position))
    | none => sb1
  else sb1

/-- The `handle_mouse_input` system. Early-returns (world untouched, no
events) when the window reports no cursor position; otherwise applies the
drag updates, then on `just_released(Left)` sends the current box in a
`FinishedSelectingEvent` and clears it, and on `just_pressed(Right)` sends a
`DeselectEvent` and clears the box. -/
def handle_mouse_input (window : Window) (selection_box : SelectionBox)
    (buttons : ButtonInput) : MouseOutput :=
  match window.cursor_position with
  | none => ⟨selection_box, [], []⟩
  | some window_position =>
    let world_position := world_pos window window_position
    let sb2 := drag_update selection_box buttons world_position
    let after_release : SelectionBox × List FinishedSelectingEvent :=
      if buttons.just_released MouseButton.Left then
        (SelectionBox.mk none, [FinishedSelectingEvent.mk sb2])
      else (sb2, [])
    let after_right : SelectionBox × List DeselectEvent :=
      if buttons.just_pressed MouseButton.Right then
        (SelectionBox.mk none, [DeselectEvent.mk])
      else (after_release.1, [])
    ⟨after_right.1, after_release.2, after_right.2⟩

/-- The `select_entities` system: it reads the first pending
`FinishedSelectingEvent` (early return when there is none) and inserts the
`Selected` and `Border` tags on every `Selectable` entity whose translation
lies within the event's box. -/
def select_entities (events : List FinishedSelectingEvent)
    (world : List EntityState) : List EntityState :=
  match events with
  | [] => world
  | ev :: _ =>
    world.map fun e =>
      if e.selectable && ev.box.within_selection e.transform.translation.xy then
        { e with selected := true, border := true }
      else e

/-- The `deselect` system: early return when no `DeselectEvent` is pending,
otherwise remove the `Selected` and `Border` tags from every `Selectable`
entity. -/
def deselect (events : List DeselectEvent) (world : List EntityState) :
    List EntityState :=
  match events with
  | [] => world
  | _ :: _ =>
    world.map fun e =>
      if e.selectable then { e with selected := false, border := false } else e

/-- The per-entity update of `display_selection_box`: set the display's
visibility from the box, and when a box is present, set the display's scale
to `to - from` and its translation to the box's center `(from + to) / 2`
(the source destructures the pair as `(from, to)` here). -/
def display_update (e : EntityState) (sb : SelectionBox) : EntityState :=
  let e1 : EntityState :=
    { e with
      visibility :=
        match sb.sel with
        | some _ => Visibility.Visible
        | none => Visibility.Hidden }
  match sb.sel with
  | none => e1
  | some (from_, to_) =>
    let center := Vec2.half (Vec2.add from_ to_)
    let scale := Vec2.sub to_ from_
    { e1 with
      transform :=
        { e1.transform with
          scale := ⟨scale.x, scale.y, 0⟩
          translation := ⟨center.x, center.y, 0⟩ } }

/-- The `display_selection_box` system: it takes the first entity carrying
the `SelectionDisplay` tag (early return when there is none) and applies
`display_update` to it; every other entity is untouched. -/
def display_selection_box : List EntityState → SelectionBox → List EntityState
  | [], _ => []
  | e :: rest, sb =>
    if e.selection_display then display_update e sb :: rest
    else e :: display_selection_box rest sb

/-- The `display_border` system, as its observable output: the list of gizmo
ellipse centers, one per entity carrying the `Border` tag (radius and color
are constants). -/
def display_border (world : List EntityState) : List Vec2 :=
  (world.filter fun e => e.border).map fun e => e.transform.translation.xy

/-- Forgetting the `MoveTo` and `TroopVelocity` components of an entity; two
worlds "differ only in those components" when their images under
`List.map erase` coincide. -/
def erase (e : EntityState) : EntityState :=
  { e with move_to := none, troop_velocity := none }

/-- C1. `within_selection` on a box with corners `to` and `from` holds at
`pos` iff `to.x < pos.x` and `pos.x < from.x` and `to.y > pos.y` and
`pos.y > from.y`, with exactly these strict, axis-asymmetric comparisons. -/
theorem C1_within_selection_iff (to_ from_ pos : Vec2) :
    SelectionBox.within_selection ⟨some (to_, from_)⟩ pos = true ↔
      (to_.x < pos.x ∧ pos.x < from_.x ∧ to_.y > pos.y ∧ pos.y > from_.y) := by
  simp [SelectionBox.within_selection, and_assoc]

/-- C2. No min/max normalization: when `to.x ≥ from.x` or `to.y ≤ from.y`
the box contains no point at all, so a drag whose direction does not match
the assumed ordering selects nothing. -/
theorem C2_inverted_box_empty (to_ from_ pos : Vec2)
    (h : to_.x ≥ from_.x ∨ to_.y ≤ from_.y) :
    SelectionBox.within_selection ⟨some (to_, from_)⟩ pos = false := by
  simp only [SelectionBox.within_selection, Bool.and_eq_false_iff,
    decide_eq_false_iff_not, not_lt, gt_iff_lt]
  rcases h with h | h
  · rcases le_or_lt pos.x to_.x with hx | hx
    · exact Or.inl (Or.inl hx)
    · exact Or.inl (Or.inr (by linarith))
  · rcases le_or_lt to_.y pos.y with hy | hy
    · exact Or.inr (Or.inl hy)
    · exact Or.inr (Or.inr (by linarith))

/-- Witness for C2 at a concrete inverted box and probe point. -/
theorem C2_inverted_box_empty_witness :
    (Vec2.mk 1 0).x ≥ (Vec2.mk 0 1).x ∧
      SelectionBox.within_selection ⟨some (⟨1, 0⟩, ⟨0, 1⟩)⟩ ⟨5, 5⟩ = false :=
  ⟨by norm_num, C2_inverted_box_empty ⟨1, 0⟩ ⟨0, 1⟩ ⟨5, 5⟩ (Or.inl (by norm_num))⟩

/-- `within_selection` fails whenever the probe point is (weakly) outside one
of the four strict bounds. -/
lemma within_selection_false_of_le (to_ from_ pos : Vec2)
    (h : (pos.x ≤ to_.x ∨ from_.x ≤ pos.x) ∨ (to_.y ≤ pos.y ∨ pos.y ≤ from_.y)) :
    SelectionBox.within_selection ⟨some (to_, from_)⟩ pos = false := by
  simpa only [SelectionBox.within_selection, Bool.and_eq_false_iff,
    decide_eq_false_iff_not, not_lt, gt_iff_lt] using h

/-- C3. On the first pending `FinishedSelectingEvent`, `select_entities`
sets `Selected` and `Border` on exactly those `Selectable` entities whose
translation is within the event's box, and leaves every other entity (not
selectable, or not within the box) unchanged. -/
theorem C3_select_entities_exact (box : SelectionBox)
    (rest : List FinishedSelectingEvent) (world : List EntityState) :
    List.Forall₂
      (fun e e' =>
        (e.selectable = true ∧
            box.within_selection e.transform.translation.xy = true →
          e' = { e with selected := true, border := true }) ∧
        (¬(e.selectable = true ∧
            box.within_selection e.transform.translation.xy = true) →
          e' = e))
      world (select_entities (⟨box⟩ :: rest) world) := by
  simp only [select_entities]
  rw [List.forall₂_map_right_iff, List.forall₂_same]
  intro e _
  by_cases hc :
      (e.selectable && box.within_selection e.transform.translation.xy) = true
  · rw [if_pos hc]
    rw [Bool.and_eq_true] at hc
    exact ⟨fun _ => rfl, fun hn => absurd hc hn⟩
  · rw [if_neg hc]
    rw [Bool.and_eq_true] at hc
    exact ⟨fun hcon => absurd hcon hc, fun _ => rfl⟩

/-- C4. With a pending `DeselectEvent`, `deselect` strips `Selected` and
`Border` from every `Selectable` entity (others untouched); with none
pending it changes nothing. -/
theorem C4_deselect_clears_selectable (events : List DeselectEvent)
    (world : List EntityState) :
    (events = [] → deselect events world = world) ∧
    (events ≠ [] →
      List.Forall₂
        (fun e e' =>
          (e.selectable = true →
            e' = { e with selected := false, border := false }) ∧
          (e.selectable = false → e' = e))
        world (deselect events world)) := by
  constructor
  · intro h
    subst h
    rfl
  · intro h
    match events with
    | [] => exact absurd rfl h
    | _ :: _ =>
      simp only [deselect]
      rw [List.forall₂_map_right_iff, List.forall₂_same]
      intro e _
      by_cases hc : e.selectable = true
      · rw [if_pos hc]
        exact ⟨fun _ => rfl, fun hfalse => absurd (hfalse ▸ hc) (by simp)⟩
      · rw [if_neg hc]
        exact ⟨fun htrue => absurd htrue hc, fun _ => rfl⟩

/-- C7. When the primary window reports no cursor position,
`handle_mouse_input` early-returns: the `SelectionBox` is unchanged and no
event is sent, whatever the buttons. -/
theorem C7_no_cursor_early_return (window : Window) (sb : SelectionBox)
    (buttons : ButtonInput) (h : window.cursor_position = none) :
    handle_mouse_input window sb buttons = ⟨sb, [], []⟩ := by
  obtain ⟨cp, sz⟩ := window
  simp only at h
  subst h
  rfl

/-- A concrete all-buttons-active input used by witnesses. -/
def all_buttons : ButtonInput :=
  ⟨fun _ => true, fun _ => true, fun _ => true⟩

/-- Witness for C7: cursorless window, all buttons active, non-empty box. -/
theorem C7_no_cursor_early_return_witness :
    (Window.mk none ⟨0, 0⟩).cursor_position = none ∧
      handle_mouse_input ⟨none, ⟨0, 0⟩⟩ ⟨some (⟨1, 2⟩, ⟨3, 4⟩)⟩ all_buttons =
        ⟨⟨some (⟨1, 2⟩, ⟨3, 4⟩)⟩, [], []⟩ :=
  ⟨rfl, C7_no_cursor_early_return ⟨none, ⟨0, 0⟩⟩ ⟨some (⟨1, 2⟩, ⟨3, 4⟩)⟩
    all_buttons rfl⟩

/-- C8. A `SelectionBox` holding `None` contains no point, so a
`FinishedSelectingEvent` carrying an empty box makes `select_entities`
select nothing: the world is returned unchanged. -/
theorem C8_none_box_selects_nothing :
    (∀ pos, SelectionBox.within_selection ⟨none⟩ pos = false) ∧
    (∀ (rest : List FinishedSelectingEvent) (world : List EntityState),
      select_entities (⟨⟨none⟩⟩ :: rest) world = world) := by
  refine ⟨fun pos => rfl, fun rest world => ?_⟩
  simp [select_entities, SelectionBox.within_selection]

/-- C9. Containment is strictly interior: a point on any of the four
boundary lines of the box is not within it, and the degenerate box `(p, p)`
(as created the instant the left button is pressed) contains no point. -/
theorem C9_boundary_excluded (to_ from_ pos p q : Vec2)
    (h : pos.x = to_.x ∨ pos.x = from_.x ∨ pos.y = to_.y ∨ pos.y = from_.y) :
    SelectionBox.within_selection ⟨some (to_, from_)⟩ pos = false ∧
    SelectionBox.within_selection ⟨some (p, p)⟩ q = false := by
  constructor
  · apply within_selection_false_of_le
    rcases h with h | h | h | h
    · exact Or.inl (Or.inl h.le)
    · exact Or.inl (Or.inr h.ge)
    · exact Or.inr (Or.inl h.ge)
    · exact Or.inr (Or.inr h.le)
  · exact within_selection_false_of_le p p q (Or.inl (le_total q.x p.x))

/-- Witness for C9: a point on the left edge of a box, and a degenerate
box probed at its own corner. -/
theorem C9_boundary_excluded_witness :
    (Vec2.mk 0 5).x = (Vec2.mk 0 10).x ∧
      SelectionBox.within_selection ⟨some (⟨0, 10⟩, ⟨10, 0⟩)⟩ ⟨0, 5⟩ = false ∧
      SelectionBox.within_selection ⟨some (⟨1, 1⟩, ⟨1, 1⟩)⟩ ⟨1, 1⟩ = false :=
  ⟨rfl,
    (C9_boundary_excluded ⟨0, 10⟩ ⟨10, 0⟩ ⟨0, 5⟩ ⟨1, 1⟩ ⟨1, 1⟩ (Or.inl rfl)).1,
    (C9_boundary_excluded ⟨0, 10⟩ ⟨10, 0⟩ ⟨0, 5⟩ ⟨1, 1⟩ ⟨1, 1⟩ (Or.inl rfl)).2⟩

/-- A buttons state where only the left button's release is active. -/
def release_only : ButtonInput :=
  ⟨fun _ => false, fun _ => false,
    fun b => match b with | MouseButton.Left => true | _ => false⟩

/-- C5 fails as stated: in a frame with no cursor position the left button
can be just-released and the `SelectionBox` still is not cleared (and no
`FinishedSelectingEvent` is sent), because `handle_mouse_input`
early-returns before the release branch. -/
theorem C5_counterexample_no_cursor :
    release_only.just_released MouseButton.Left = true ∧
      (handle_mouse_input ⟨none, ⟨0, 0⟩⟩ ⟨some (⟨0, 0⟩, ⟨1, 1⟩)⟩
          release_only).selection_box ≠ SelectionBox.mk none :=
  ⟨rfl, by decide⟩

/-- C5 (amended: provided the window reports a cursor position). In such a
frame, a just-released left button clears the `SelectionBox` and first sends
the box as updated by this frame's drag steps in a `FinishedSelectingEvent`,
and a just-pressed right button clears the `SelectionBox`. -/
theorem C5_clear_on_release_or_right (window : Window) (sb : SelectionBox)
    (buttons : ButtonInput) (wp : Vec2)
    (h : window.cursor_position = some wp) :
    (buttons.just_released MouseButton.Left = true →
      (handle_mouse_input window sb buttons).selection_box = ⟨none⟩ ∧
      (handle_mouse_input window sb buttons).finished_events =
        [⟨drag_update sb buttons (world_pos window wp)⟩]) ∧
    (buttons.just_pressed MouseButton.Right = true →
      (handle_mouse_input window sb buttons).selection_box = ⟨none⟩) := by
  obtain ⟨cp, sz⟩ := window
  have hc : cp = some wp := h
  subst hc
  constructor
  · intro hrel
    by_cases hr : buttons.just_pressed MouseButton.Right = true <;>
      simp [handle_mouse_input, hrel, hr]
  · intro hr
    simp [handle_mouse_input, hr]

/-- Witness for C5: cursor present, all buttons active. -/
theorem C5_clear_on_release_or_right_witness :
    (Window.mk (some ⟨10, 10⟩) ⟨4, 6⟩).cursor_position = some ⟨10, 10⟩ ∧
    all_buttons.just_released MouseButton.Left = true ∧
    (handle_mouse_input ⟨some ⟨10, 10⟩, ⟨4, 6⟩⟩ ⟨none⟩
        all_buttons).selection_box = ⟨none⟩ ∧
    (handle_mouse_input ⟨some ⟨10, 10⟩, ⟨4, 6⟩⟩ ⟨none⟩
        all_buttons).finished_events =
      [⟨drag_update ⟨none⟩ all_buttons
          (world_pos ⟨some ⟨10, 10⟩, ⟨4, 6⟩⟩ ⟨10, 10⟩)⟩] := by
  have h := C5_clear_on_release_or_right ⟨some ⟨10, 10⟩, ⟨4, 6⟩⟩ ⟨none⟩
    all_buttons ⟨10, 10⟩ rfl
  exact ⟨rfl, rfl, (h.1 rfl).1, (h.1 rfl).2⟩

/-- `erase` is idempotent. -/
lemma erase_erase (e : EntityState) : erase (erase e) = erase e := rfl

/-- Mapping an `erase`-commuting per-entity update preserves agreement up to
`erase`. -/
lemma map_erase_congr (f : EntityState → EntityState)
    (hf : ∀ e, erase (f e) = f (erase e))
    {w w' : List EntityState} (h : w.map erase = w'.map erase) :
    (w.map f).map erase = (w'.map f).map erase := by
  have hcomp : (erase ∘ f) = (f ∘ erase) := funext hf
  rw [List.map_map, List.map_map, hcomp, ← List.map_map, ← List.map_map, h]

/-- The per-entity update of `select_entities` commutes with `erase`. -/
lemma select_update_erase (box : SelectionBox) (e : EntityState) :
    erase
        (if e.selectable && box.within_selection e.transform.translation.xy
          then { e with selected := true, border := true } else e) =
      if (erase e).selectable &&
          box.within_selection (erase e).transform.translation.xy
        then { erase e with selected := true, border := true } else erase e := by
  by_cases hc :
      (e.selectable && box.within_selection e.transform.translation.xy) = true <;>
    simp [erase, hc]

/-- The per-entity update of `deselect` commutes with `erase`. -/
lemma deselect_update_erase (e : EntityState) :
    erase (if e.selectable then { e with selected := false, border := false }
        else e) =
      if (erase e).selectable
        then { erase e with selected := false, border := false } else erase e := by
  by_cases hc : e.selectable = true <;> simp [erase, hc]

/-- `display_update` commutes with `erase`. -/
lemma display_update_erase (e : EntityState) (sb : SelectionBox) :
    erase (display_update e sb) = display_update (erase e) sb := by
  rcases sb with ⟨_ | ⟨f, t⟩⟩ <;> rfl

/-- `display_selection_box` sends `erase`-equal worlds to `erase`-equal
worlds. -/
lemma display_selection_box_erase_congr (sb : SelectionBox) :
    ∀ {w w' : List EntityState}, w.map erase = w'.map erase →
      (display_selection_box w sb).map erase =
        (display_selection_box w' sb).map erase := by
  intro w
  induction w with
  | nil =>
    intro w' h
    rw [List.eq_nil_of_map_eq_nil h.symm]
  | cons e t ih =>
    intro w' h
    match w' with
    | [] => exact absurd h.symm (by simp)
    | e' :: t' =>
      simp only [List.map_cons, List.cons.injEq] at h
      obtain ⟨h1, h2⟩ := h
      have hsd0 := congrArg EntityState.selection_display h1
      have hsd : e.selection_display = e'.selection_display := hsd0
      by_cases hd : e.selection_display = true
      · simp only [display_selection_box, if_pos hd, if_pos (hsd ▸ hd),
          List.map_cons]
        rw [display_update_erase, display_update_erase, h1, h2]
      · simp only [display_selection_box, if_neg hd, if_neg (hsd ▸ hd),
          List.map_cons]
        rw [h1, ih h2]

/-- `display_border` does not look at the erased components. -/
lemma display_border_erase (w : List EntityState) :
    display_border (w.map erase) = display_border w := by
  induction w with
  | nil => rfl
  | cons e t ih =>
    by_cases hb : e.border = true <;>
      simp only [display_border, List.map_cons, List.filter_cons, erase] at ih ⊢ <;>
      simp [hb, ih]

/-- C6. Non-interference of the unused `MoveTo` / `TroopVelocity` pair: for
any two worlds that differ only in those components, every registered Update
system produces the same observable result — the same entity updates up to
those components for `select_entities`, `deselect` and
`display_selection_box`, and the same gizmo output for `display_border`
(`handle_mouse_input` reads no entity at all, as its type shows). -/
theorem C6_unused_components_no_influence (w w' : List EntityState)
    (h : w.map erase = w'.map erase) :
    (∀ ev, (select_entities ev w).map erase =
        (select_entities ev w').map erase) ∧
    (∀ dev, (deselect dev w).map erase = (deselect dev w').map erase) ∧
    (∀ sb, (display_selection_box w sb).map erase =
        (display_selection_box w' sb).map erase) ∧
    display_border w = display_border w' := by
  refine ⟨fun ev => ?_, fun dev => ?_, fun sb => ?_, ?_⟩
  · match ev with
    | [] => exact h
    | e :: _ =>
      simp only [select_entities]
      exact map_erase_congr _ (select_update_erase e.box) h
  · match dev with
    | [] => exact h
    | _ :: _ =>
      simp only [deselect]
      exact map_erase_congr _ deselect_update_erase h
  · exact display_selection_box_erase_congr sb h
  · rw [← display_border_erase w, ← display_border_erase w', h]

/-- A sample selectable entity carrying the unused components. -/
def ent_a : EntityState :=
  ⟨⟨⟨0, 0, 0⟩, ⟨1, 1, 1⟩⟩, true, false, false, false, Visibility.Inherited,
    some ⟨⟨5, 5⟩⟩, some ⟨3⟩⟩

/-- `ent_a` with the unused components absent. -/
def ent_b : EntityState := { ent_a with move_to := none, troop_velocity := none }

/-- Witness for C6: two one-entity worlds differing only in `MoveTo` and
`TroopVelocity` produce the same selection result and the same gizmos. -/
theorem C6_unused_components_no_influence_witness :
    ([ent_a].map erase = [ent_b].map erase) ∧
    (select_entities [⟨⟨some (⟨-1, 1⟩, ⟨1, -1⟩)⟩⟩] [ent_a]).map erase =
      (select_entities [⟨⟨some (⟨-1, 1⟩, ⟨1, -1⟩)⟩⟩] [ent_b]).map erase ∧
    display_border [ent_a] = display_border [ent_b] := by
  have h := C6_unused_components_no_influence [ent_a] [ent_b] rfl
  exact ⟨rfl, h.1 [⟨⟨some (⟨-1, 1⟩, ⟨1, -1⟩)⟩⟩], h.2.2.2⟩

/-- `display_update` never changes the `Selected` and `Border` tags. -/
lemma display_update_preserves_tags (e : EntityState) (sb : SelectionBox) :
    (display_update e sb).selected = e.selected ∧
      (display_update e sb).border = e.border := by
  rcases sb with ⟨_ | ⟨f, t⟩⟩ <;> exact ⟨rfl, rfl⟩

/-- C10. Selection is additive: `select_entities` only ever turns the
`Selected` and `Border` tags on, never off, and `display_selection_box`
preserves them exactly — so of the registered systems that touch entities,
only `deselect` removes these tags (`handle_mouse_input` and
`display_border` touch no tag, as their types show). -/
theorem C10_selection_additive :
    (∀ (ev : List FinishedSelectingEvent) (w : List EntityState),
      List.Forall₂
        (fun e e' => (e.selected = true → e'.selected = true) ∧
          (e.border = true → e'.border = true))
        w (select_entities ev w)) ∧
    (∀ (w : List EntityState) (sb : SelectionBox),
      List.Forall₂
        (fun e e' => e'.selected = e.selected ∧ e'.border = e.border)
        w (display_selection_box w sb)) := by
  constructor
  · intro ev w
    match ev with
    | [] => exact List.forall₂_same.mpr fun e _ => ⟨id, id⟩
    | e :: _ =>
      simp only [select_entities]
      rw [List.forall₂_map_right_iff, List.forall₂_same]
      intro x _
      by_cases hc :
          (x.selectable && e.box.within_selection x.transform.translation.xy)
            = true
      · rw [if_pos hc]
        exact ⟨fun _ => rfl, fun _ => rfl⟩
      · rw [if_neg hc]
        exact ⟨id, id⟩
  · intro w sb
    induction w with
    | nil => exact List.Forall₂.nil
    | cons e t ih =>
      by_cases hd : e.selection_display = true
      · simp only [display_selection_box, if_pos hd]
        exact List.Forall₂.cons (display_update_preserves_tags e sb)
          (List.forall₂_same.mpr fun x _ => ⟨rfl, rfl⟩)
      · simp only [display_selection_box, if_neg hd]
        exact List.Forall₂.cons ⟨rfl, rfl⟩ ih

end Conquest
